import Mathlib

/-!
Shallow embedding of the two cron reconcilers of this repository
(`scripts/cron/github-issue-spec-codex-cron.mjs` and
`scripts/cron/github-pr-review-codex-cron.mjs`), together with theorems
settling the frozen claims about them.

Network calls, the file system and subprocesses are modelled as injected
oracles (`Except`-valued inputs standing for fallible `await`s, explicit
lists of created/removed directories); JavaScript strings are Lean
`String`s with the `||`-falsiness of `""`, `undefined`/`null` is `Option`,
and `Date.getTime` is an injected interpretation `String → Int`.
-/

namespace CodexCron

/-! ## JavaScript string primitives -/

/-- Whitespace characters recognised by the regex class `\s` (ASCII part). -/
def isJsSpace (c : Char) : Bool :=
  c = ' ' || c = '\t' || c = '\n' || c = '\r' || c = '\x0b' || c = '\x0c'

/-- ASCII lowering, modelling `String.prototype.toLowerCase` on ASCII data. -/
def asciiLower (c : Char) : Char :=
  if 'A' ≤ c ∧ c ≤ 'Z' then Char.ofNat (c.toNat + 32) else c

/-- ASCII uppering, modelling `String.prototype.toUpperCase` on ASCII data. -/
def asciiUpper (c : Char) : Char :=
  if 'a' ≤ c ∧ c ≤ 'z' then Char.ofNat (c.toNat - 32) else c

def lowerStr (s : String) : String := String.mk (s.data.map asciiLower)

def upperStr (s : String) : String := String.mk (s.data.map asciiUpper)

/-- Trim on a character list: drop `\s` characters from both ends
(`String.prototype.trim`). -/
def trimChars (cs : List Char) : List Char :=
  ((cs.dropWhile isJsSpace).reverse.dropWhile isJsSpace).reverse

def jsTrim (s : String) : String := String.mk (trimChars s.data)

/-- Replace every maximal run of characters satisfying `p` by the single
character `r` (the effect of `replace(/[c]+/g, r)`).  The boolean flag
records whether the previous character was part of a run. -/
def squashRunsAux (p : Char → Bool) (r : Char) : Bool → List Char → List Char
  | _, [] => []
  | inRun, c :: cs =>
    if p c then
      if inRun then squashRunsAux p r true cs
      else r :: squashRunsAux p r true cs
    else c :: squashRunsAux p r false cs

def squashRuns (p : Char → Bool) (r : Char) (cs : List Char) : List Char :=
  squashRunsAux p r false cs

/-- Does `needle` occur at the head of `hay`? -/
def startsWithL : List Char → List Char → Bool
  | [], _ => true
  | _ :: _, [] => false
  | a :: as, b :: bs => a = b && startsWithL as bs

/-- Does `needle` occur anywhere in `hay` (regex literal search)? -/
def containsSubL (needle : List Char) : List Char → Bool
  | [] => startsWithL needle []
  | c :: rest => startsWithL needle (c :: rest) || containsSubL needle rest

/-- Split on `\r?\n` as in `body.split(/\r?\n/)`: separators are `"\n"`
and `"\r\n"`; a lone `"\r"` is not a separator. -/
def splitLinesAux (acc : List Char) : List Char → List (List Char)
  | [] => [acc.reverse]
  | '\r' :: '\n' :: rest => acc.reverse :: splitLinesAux [] rest
  | '\n' :: rest => acc.reverse :: splitLinesAux [] rest
  | c :: rest => splitLinesAux (c :: acc) rest

def splitLines (s : String) : List (List Char) := splitLinesAux [] s.data

/-- JavaScript truthiness of a possibly-absent string: `undefined`, `null`
and `""` are falsy (`s || null`). -/
def truthyStr : Option String → Option String
  | none => none
  | some s => if s = "" then none else some s

/-- JavaScript truthiness of a possibly-absent number: `undefined` and `0`
are falsy. -/
def truthyNat : Option Nat → Option Nat
  | none => none
  | some n => if n = 0 then none else some n

/-- `a || b` for strings where only `""` is falsy. -/
def jsOrS (a b : String) : String := if a = "" then b else a

/-! ## Association lists (JavaScript object / `Map` semantics)

Setting an existing key replaces its value in place (keeping insertion
order); setting a fresh key appends.  This is the semantics of both
`obj[key] = v` and `Map.prototype.set`. -/

def assocGet {α : Type} : List (String × α) → String → Option α
  | [], _ => none
  | (k', v) :: rest, k => if k' = k then some v else assocGet rest k

def assocSet {α : Type} : List (String × α) → String → α → List (String × α)
  | [], k, v => [(k, v)]
  | e :: rest, k, v => if e.1 = k then (k, v) :: rest else e :: assocSet rest k v

/-- `findIndex` over a list, `-1` modelled as `none`. -/
def findIdxL {α : Type} (p : α → Bool) : List α → Option Nat
  | [] => none
  | a :: rest => if p a then some 0 else (findIdxL p rest).map (· + 1)

/-- Append an element to a list unless already present
(`Set.prototype.add`, insertion order preserved). -/
def addUniqueNat (l : List Nat) (n : Nat) : List Nat :=
  if l.contains n then l else l ++ [n]

/-! ## Issue-spec variant: data model

`github-issue-spec-codex-cron.mjs`.  A GitHub label array entry is either
a bare string or an object with a `name` field. -/

inductive GLabel : Type
  | str (s : String)
  | obj (name : Option String)
deriving DecidableEq

/-- `typeof l === 'string' ? l : l.name` followed by `.filter(Boolean)`
(which drops absent names and `""`). -/
def extractLabels (ls : List GLabel) : List String :=
  ls.filterMap fun l =>
    match l with
    | .str s => if s = "" then none else some s
    | .obj name =>
      match name with
      | some s => if s = "" then none else some s
      | none => none

structure GIssue : Type where
  number : Nat
  title : String
  url : String
  user : Option String
  body : Option String
  labels : List GLabel
  updatedAt : String
deriving DecidableEq

structure GPayload : Type where
  action : Option String
  issue : Option GIssue
deriving DecidableEq

structure GEvent : Type where
  id : String
  type : String
  payload : Option GPayload
deriving DecidableEq

/-- The state record written by `writeState`:
`{ lastEventId, ts, reset? }` (`reset` absent modelled as `false`). -/
structure StateRec : Type where
  lastEventId : String
  ts : String
  reset : Bool
deriving DecidableEq

/-- Whatever `JSON.parse` produced for the prior state; only
`lastEventId` is consulted (`state?.lastEventId`). -/
structure PriorState : Type where
  lastEventId : Option String
deriving DecidableEq

/-- `readState`: `try { JSON.parse(readFileSync(...)) } catch { return null }`.
An unreadable or invalid file is the `.error` case and yields `none`. -/
def readState (raw : Except Unit (Option PriorState)) : Option PriorState :=
  match raw with
  | .error _ => none
  | .ok v => v

/-- `state?.lastEventId || null`. -/
def priorLastId (stIn : Option PriorState) : Option String :=
  match stIn with
  | none => none
  | some s => truthyStr s.lastEventId

/-- `events?.[0]?.id || null`. -/
def newestIdOf (events : List GEvent) : Option String :=
  match events with
  | [] => none
  | e :: _ => if e.id = "" then none else some e.id

/-! ## Issue-spec variant: label matcher and checkbox gate -/

/-- `normalizeLabel` from `hasModuleSpecLabel`: lowercase, trim, collapse
`[_\s]+` runs to `-`, collapse `-+` runs to `-`. -/
def normalizeLabel (v : String) : String :=
  String.mk
    (squashRuns (fun c => c = '-') '-'
      (squashRuns (fun c => c = '_' || isJsSpace c) '-'
        (trimChars (v.data.map asciiLower))))

/-- `hasModuleSpecLabel` (normalizing variant): some label normalizes to
the normalized configured target. -/
def hasModuleSpecLabel (specLabel : String) (issue : GIssue) : Bool :=
  let target := normalizeLabel specLabel
  (extractLabels issue.labels).any fun l => normalizeLabel l = target

/-- `/^\s*-\s*\[x\]\s+/i` on an already-lowered line. -/
def matchCheckbox (cs : List Char) : Bool :=
  match (cs.dropWhile isJsSpace) with
  | '-' :: rest =>
    match rest.dropWhile isJsSpace with
    | '[' :: x :: ']' :: rest2 =>
      (x = 'x') && (match rest2 with
        | c :: _ => isJsSpace c
        | [] => false)
    | _ => false
  | _ => false

/-- `/auto-?generate/i` on an already-lowered line. -/
def hasAutoGenerate (cs : List Char) : Bool :=
  containsSubL "autogenerate".data cs || containsSubL "auto-generate".data cs

def isWordChar (c : Char) : Bool := c.isAlphanum || c = '_'

/-- `/\bpr\b/i` on an already-lowered line: an occurrence of `pr` with a
non-word character (or edge) on both sides.  The first argument is the
character just before the current position. -/
def hasWordPrAux : Option Char → List Char → Bool
  | _, [] => false
  | prev, 'p' :: 'r' :: rest =>
    (((match prev with
       | none => true
       | some c => !(isWordChar c)) &&
      (match rest with
       | [] => true
       | c :: _ => !(isWordChar c)))) ||
    hasWordPrAux (some 'p') ('r' :: rest)
  | _, c :: rest => hasWordPrAux (some c) rest

def hasWordPr (cs : List Char) : Bool := hasWordPrAux none cs

/-- `checkboxChecked(issueBody)`: some line is a checked checkbox matching
the auto-generate-PR semantic pattern. -/
def checkboxChecked (issueBody : String) : Bool :=
  if issueBody = "" then false
  else
    (splitLines issueBody).any fun l =>
      let low := l.map asciiLower
      matchCheckbox low && hasAutoGenerate low && hasWordPr low

/-! ## Issue-spec variant: cycle -/

/-- Element of `matched` (and, with `prAlreadyOpen`, of `actionable`). -/
structure Item : Type where
  id : String
  action : Option String
  number : Nat
  title : String
  url : String
  user : Option String
  checked : Bool
  updatedAt : String
  labels : List String
deriving DecidableEq

structure ActItem : Type where
  item : Item
  prAlreadyOpen : Bool
deriving DecidableEq

/-- Raw item of the `search/issues` response used by the sweep. -/
structure SearchIssue : Type where
  number : Nat
  title : String
  url : String
  user : Option String
  body : Option String
  updatedAt : String
  labels : List GLabel
deriving DecidableEq

/-- Mapped record of `listOpenModuleSpecIssues`. -/
structure SweepItem : Type where
  number : Nat
  title : String
  url : String
  user : Option String
  checked : Bool
  updatedAt : String
  labels : List String
deriving DecidableEq

def listOpenModuleSpecIssues (items : List SearchIssue) : List SweepItem :=
  items.map fun i =>
    { number := i.number
      title := i.title
      url := i.url
      user := i.user
      checked := checkboxChecked (i.body.getD "")
      updatedAt := i.updatedAt
      labels := extractLabels i.labels }

/-- `try { await hasOpenPRForIssue(n) } catch { false }`. -/
def prOpenOf (q : Nat → Except Unit Bool) (n : Nat) : Bool :=
  match q n with
  | .ok b => b
  | .error _ => false

/-- The per-event body of the loop over chronological new events:
`IssuesEvent`s with a payload issue carrying the configured label are
pushed to `matched`; checked issues with a triggering action are pushed
to `actionable` together with the open-PR guard result. -/
def processEvents (specLabel : String) (prOpenQ : Nat → Except Unit Bool) :
    List GEvent → List Item × List ActItem
  | [] => ([], [])
  | ev :: rest =>
    let tail := processEvents specLabel prOpenQ rest
    if ev.type = "IssuesEvent" then
      match ev.payload.bind (·.issue) with
      | none => tail
      | some issue =>
        if hasModuleSpecLabel specLabel issue then
          let checked := checkboxChecked (issue.body.getD "")
          let rawAct := ev.payload.bind (·.action)
          let item : Item :=
            { id := ev.id
              action := truthyStr rawAct
              number := issue.number
              title := issue.title
              url := issue.url
              user := issue.user
              checked := checked
              updatedAt := issue.updatedAt
              labels := extractLabels issue.labels }
          let canAct := rawAct = some "opened" ∨ rawAct = some "edited" ∨
            rawAct = some "labeled" ∨ rawAct = some "reopened"
          if checked ∧ canAct then
            (item :: tail.1, ⟨item, prOpenOf prOpenQ issue.number⟩ :: tail.2)
          else (item :: tail.1, tail.2)
        else tail
    else tail

/-- Sweep-merge step: skip unchecked issues, issues already captured from
the event window, and issues with an open `Fixes #n` PR; otherwise record
a `sweep`-derived actionable item. -/
def sweepStep (prOpenQ : Nat → Except Unit Bool)
    (m : List (String × ActItem)) (i : SweepItem) : List (String × ActItem) :=
  if !i.checked then m
  else if (assocGet m (toString i.number)).isSome then m
  else
    let pr := prOpenOf prOpenQ i.number
    if pr then m
    else
      assocSet m (toString i.number)
        ⟨{ id := "sweep-" ++ toString i.number
           action := some "sweep"
           number := i.number
           title := i.title
           url := i.url
           user := i.user
           checked := i.checked
           updatedAt := i.updatedAt
           labels := i.labels }, pr⟩

structure IOut : Type where
  newestEventId : Option String
  initialized : Bool
  reset : Bool
  matched : List Item
  actionable : List ActItem
deriving DecidableEq

/-- Result of a cycle: the returned summary plus the sequence of
`writeState` calls performed, in order. -/
structure IRun : Type where
  out : IOut
  writes : List StateRec
deriving DecidableEq

/-- `collectActionableEvents` of the issue-spec variant.  `prOpenQ` is the
`hasOpenPRForIssue` oracle, `sweepQ` the `search/issues` sweep oracle and
`now` the timestamp `new Date().toISOString()`. -/
def collectActionableEvents (specLabel : String) (stIn : Option PriorState)
    (events : List GEvent) (prOpenQ : Nat → Except Unit Bool)
    (sweepQ : Except Unit (List SearchIssue)) (now : String) : IRun :=
  match newestIdOf events with
  | none => ⟨⟨none, false, false, [], []⟩, []⟩
  | some newest =>
    match priorLastId stIn with
    | none => ⟨⟨some newest, true, false, [], []⟩, [⟨newest, now, false⟩]⟩
    | some last =>
      if last = newest then ⟨⟨some newest, false, false, [], []⟩, []⟩
      else
        let newOnes := events.takeWhile fun e => e.id != last
        if newOnes.length = events.length then
          ⟨⟨some newest, false, true, [], []⟩, [⟨newest, now, true⟩]⟩
        else
          let mp := processEvents specLabel prOpenQ newOnes.reverse
          let m1 := mp.2.foldl
            (fun m it =>
              if it.prAlreadyOpen then m
              else assocSet m (toString it.item.number) it) []
          let sweep :=
            match sweepQ with
            | .error _ => []
            | .ok items => listOpenModuleSpecIssues items
          let m2 := sweep.foldl (sweepStep prOpenQ) m1
          ⟨⟨some newest, false, false, mp.1, m2.map (·.2)⟩, [⟨newest, now, false⟩]⟩

/-- The state visible to a later cycle: the last successful atomic write,
or the original state when the cycle wrote nothing. -/
def stateAfterI (stIn : Option PriorState) (writes : List StateRec) :
    Option PriorState :=
  match writes.getLast? with
  | some w => some ⟨some w.lastEventId⟩
  | none => stIn

/-! ## PR-review variant: data model

`github-pr-review-codex-cron.mjs`. -/

structure PRRef : Type where
  number : Option Nat
deriving DecidableEq

structure CheckApp : Type where
  slug : Option String
  name : Option String
deriving DecidableEq

structure CheckRun : Type where
  name : Option String
  externalId : Option String
  status : Option String
  conclusion : Option String
  app : Option CheckApp
  htmlUrl : Option String
  detailsUrl : Option String
  pullRequests : Option (List PRRef)
deriving DecidableEq

structure CheckSuite : Type where
  status : Option String
  conclusion : Option String
  app : Option CheckApp
  htmlUrl : Option String
  pullRequests : Option (List PRRef)
deriving DecidableEq

structure DeployStatus : Type where
  state : Option String
  environment : Option String
  targetUrl : Option String
  environmentUrl : Option String
  url : Option String
deriving DecidableEq

/-- `payload.issue`: only `number` and the truthiness of
`issue.pull_request` are consulted. -/
structure PIssueRef : Type where
  number : Option Nat
  isPull : Bool
deriving DecidableEq

structure PPayload : Type where
  pullRequest : Option PRRef
  issue : Option PIssueRef
  checkRun : Option CheckRun
  checkSuite : Option CheckSuite
  deploymentStatus : Option DeployStatus
deriving DecidableEq

structure PEvent : Type where
  id : String
  type : String
  payload : Option PPayload
deriving DecidableEq

/-- `prNumFromPayload`: pull_request number, then issue number when the
issue is a PR, then the first PR of a check run, then of a check suite. -/
def prNumFromPayload (po : Option PPayload) : Option Nat :=
  match truthyNat ((po.bind (·.pullRequest)).bind (·.number)) with
  | some n => some n
  | none =>
    let iss := po.bind (·.issue)
    match truthyNat (iss.bind (·.number)) with
    | some n =>
      if (iss.map (·.isPull)).getD false then some n
      else fromChecks po
    | none => fromChecks po
where
  fromChecks (po : Option PPayload) : Option Nat :=
    match (po.bind (·.checkRun)).bind (·.pullRequests) with
    | some (pr :: _) =>
      match truthyNat pr.number with
      | some n => some n
      | none => fromSuite po
    | _ => fromSuite po
  fromSuite (po : Option PPayload) : Option Nat :=
    match (po.bind (·.checkSuite)).bind (·.pullRequests) with
    | some (pr :: _) => truthyNat pr.number
    | _ => none

/-- `compactTitle`: collapse whitespace, trim, ellipsise beyond `max`. -/
def compactTitle (s : Option String) (max : Nat := 80) : String :=
  match truthyStr s with
  | none => ""
  | some s0 =>
    let oneLine := trimChars (squashRuns isJsSpace ' ' s0.data)
    if oneLine.length ≤ max then String.mk oneLine
    else String.mk (oneLine.take (max - 3)) ++ "..."

/-- `/coderabbit/i.test(String(login || ''))`. -/
def isCodeRabbitLogin (login : String) : Bool :=
  containsSubL "coderabbit".data (login.data.map asciiLower)

def isCodeRabbitLoginOpt (login : Option String) : Bool :=
  isCodeRabbitLogin (login.getD "")

/-- `maxIso(a, b)` with an injected `Date.getTime` interpretation. -/
def maxIso (getTime : String → Int) (a b : Option String) : Option String :=
  match truthyStr a with
  | none => b
  | some a' =>
    match truthyStr b with
    | none => a
    | some b' => if getTime a' ≥ getTime b' then a else b

structure Review : Type where
  user : Option String
  submittedAt : Option String
deriving DecidableEq

structure IComment : Type where
  user : Option String
  createdAt : Option String
deriving DecidableEq

/-- The three paginated listings fetched by
`getLatestCodeRabbitActivityIso`. -/
structure PRActivity : Type where
  reviews : List Review
  issueComments : List IComment
  reviewComments : List IComment
deriving DecidableEq

def getLatestCodeRabbitActivityIso (getTime : String → Int)
    (a : PRActivity) : Option String :=
  let l1 := a.reviews.foldl
    (fun l r => if isCodeRabbitLoginOpt r.user then maxIso getTime l r.submittedAt else l)
    none
  let l2 := a.issueComments.foldl
    (fun l c => if isCodeRabbitLoginOpt c.user then maxIso getTime l c.createdAt else l)
    l1
  a.reviewComments.foldl
    (fun l c => if isCodeRabbitLoginOpt c.user then maxIso getTime l c.createdAt else l)
    l2

/-- `commit.commit.committer/author` dates of the head-commit lookup. -/
structure CommitData : Type where
  committerDate : Option String
  authorDate : Option String
deriving DecidableEq

/-- `commit?.commit?.committer?.date || commit?.commit?.author?.date || null`. -/
def commitIsoOf (c : CommitData) : Option String :=
  match truthyStr c.committerDate with
  | some d => some d
  | none => truthyStr c.authorDate

/-! ## PR-review variant: review-thread pagination -/

structure ThreadComment : Type where
  author : Option String
deriving DecidableEq

structure RThread : Type where
  isResolved : Bool
  isOutdated : Bool
  comments : List ThreadComment
deriving DecidableEq

/-- One page of the `reviewThreads(first:100, after:$after)` query. -/
structure ThreadPage : Type where
  nodes : List RThread
  hasNextPage : Bool
deriving DecidableEq

/-- Per-page body of the counting loop: unresolved, non-outdated threads
with at least one CodeRabbit-authored comment. -/
def countUnresolvedInPage (nodes : List RThread) : Nat :=
  (nodes.filter fun t =>
    !t.isResolved && !t.isOutdated &&
      ((t.comments.filterMap fun c =>
          match c.author with
          | some s => if s = "" then none else some s
          | none => none).any
        fun a => isCodeRabbitLogin a)).length

/-- The `for (let i = 0; i < 5; i += 1)` pagination loop: at most `fuel`
fetches; stop when `pageInfo.hasNextPage` is false. -/
def crCountLoop : Nat → List ThreadPage → Nat
  | 0, _ => 0
  | _ + 1, [] => 0
  | n + 1, pg :: rest =>
    countUnresolvedInPage pg.nodes + (if pg.hasNextPage then crCountLoop n rest else 0)

/-- `getCodeRabbitUnresolvedThreadCount`, with the PR's logical sequence
of thread pages injected. -/
def getCodeRabbitUnresolvedThreadCount (pages : List ThreadPage) : Nat :=
  crCountLoop 5 pages

/-- Modelled from the spec words only, for comparison with the source
function: "Thread resolution state is paginated; traversal must continue
across all pages before concluding a final unresolved count" — the
unresolved count over every reported page. -/
def specUnresolvedTotal (pages : List ThreadPage) : Nat :=
  (pages.map fun p => countUnresolvedInPage p.nodes).sum

/-- A well-formed reported page sequence: nonempty, `hasNextPage` on every
page but the last, and not on the last. -/
def wfPagesB : List ThreadPage → Bool
  | [] => false
  | [p] => !p.hasNextPage
  | p :: rest => p.hasNextPage && wfPagesB rest

/-! ## PR-review variant: urgent alert lines -/

/-- `cr?.name || cr?.external_id || 'check'`-style defaulting chain. -/
def orDefault (a b : Option String) (d : String) : String :=
  match truthyStr a with
  | some s => s
  | none =>
    match truthyStr b with
    | some s => s
    | none => d

def prNumStrOf (po : Option PPayload) : String :=
  match prNumFromPayload po with
  | some n => toString n
  | none => "?"

def lineForCheckRunEvent (ev : PEvent) : Option String :=
  match ev.payload.bind (·.checkRun) with
  | none => none
  | some cr =>
    let prNum := prNumStrOf ev.payload
    let name := orDefault cr.name cr.externalId "check"
    let status := jsOrS (upperStr (cr.status.getD "")) "STATUS"
    let conclusion := upperStr (cr.conclusion.getD "")
    let interesting : List String :=
      ["FAILURE", "CANCELLED", "TIMED_OUT", "ACTION_REQUIRED", "STARTUP_FAILURE"]
    let isInteresting :=
      if conclusion ≠ "" then interesting.contains conclusion
      else status ≠ "COMPLETED"
    if !isInteresting then none
    else
      let app :=
        orDefault (cr.app.bind (·.slug)) ((cr.app.bind (·.name))) "checks"
      let url :=
        match truthyStr cr.htmlUrl with
        | some u => some u
        | none => truthyStr cr.detailsUrl
      let state := if conclusion ≠ "" then status ++ "/" ++ conclusion else status
      some (jsTrim ("PR #" ++ prNum ++ " - CHECK " ++ name ++ " (" ++ app ++
        ") - " ++ state ++ " - " ++ url.getD ""))

def lineForCheckSuiteEvent (ev : PEvent) : Option String :=
  match ev.payload.bind (·.checkSuite) with
  | none => none
  | some cs =>
    let prNum := prNumStrOf ev.payload
    let status := jsOrS (upperStr (cs.status.getD "")) "STATUS"
    let conclusion := upperStr (cs.conclusion.getD "")
    let interesting : List String :=
      ["FAILURE", "CANCELLED", "TIMED_OUT", "ACTION_REQUIRED", "STARTUP_FAILURE"]
    let isInteresting :=
      if conclusion ≠ "" then interesting.contains conclusion
      else status ≠ "COMPLETED"
    if !isInteresting then none
    else
      let app :=
        orDefault (cs.app.bind (·.slug)) ((cs.app.bind (·.name))) "checks"
      let state := if conclusion ≠ "" then status ++ "/" ++ conclusion else status
      some (jsTrim ("PR #" ++ prNum ++ " - CHECK SUITE (" ++ app ++ ") - " ++
        state ++ " - " ++ (truthyStr cs.htmlUrl).getD ""))

def lineForDeploymentStatusEvent (ev : PEvent) : Option String :=
  match ev.payload.bind (·.deploymentStatus) with
  | none => none
  | some ds =>
    let state := upperStr (ds.state.getD "")
    if !(["ERROR", "FAILURE", "INACTIVE"].contains state) then none
    else
      let prNum := prNumStrOf ev.payload
      let env := jsOrS (ds.environment.getD "") "deployment"
      let url :=
        match truthyStr ds.targetUrl with
        | some u => some u
        | none =>
          match truthyStr ds.environmentUrl with
          | some u => some u
          | none => truthyStr ds.url
      some (jsTrim ("PR #" ++ prNum ++ " - DEPLOYMENT " ++ env ++ " - " ++
        state ++ " - " ++ url.getD ""))

/-! ## PR-review variant: persisted state and dedup -/

/-- `notified["<prNumber>"]` record: `{ sha, latestCR, notifiedAt }`. -/
structure NotifRec : Type where
  sha : String
  latestCR : String
  notifiedAt : String
deriving DecidableEq

abbrev NEntry := String × NotifRec

/-- Whatever `JSON.parse` produced for the prior state; `main` consults
`state.lastEventId` and `state.notified || {}`. -/
structure PStateIn : Type where
  lastEventId : Option String
  notified : Option (List NEntry)
deriving DecidableEq

/-- `readJson`: `try { JSON.parse(readFileSync(p)) } catch { return null }`. -/
def readJson (raw : Except Unit (Option PStateIn)) : Option PStateIn :=
  match raw with
  | .error _ => none
  | .ok v => v

/-- `(readJson(STATE_PATH) || {}).lastEventId`, with `""` falsy
(`if (!lastEventId)`). -/
def pLastId (stIn : Option PStateIn) : Option String :=
  truthyStr ((stIn.getD ⟨none, none⟩).lastEventId)

/-- `(readJson(STATE_PATH) || {}).notified || {}`. -/
def pNotifiedOf (stIn : Option PStateIn) : List NEntry :=
  (stIn.getD ⟨none, none⟩).notified.getD []

/-- Argument of one `writeJsonAtomic` call:
`{ lastEventId, notified, ts, reset? }` (`reset` absent is `false`). -/
structure PWrite : Type where
  lastEventId : String
  notified : List NEntry
  ts : String
  reset : Bool
deriving DecidableEq

/-- The dedup decision of the ready branch: notify unless an existing
record for the PR has identical `(sha, latestCR)`
(`!(lastNotified.sha === item.headSha && lastNotified.latestCR === latestCR)`
with `lastNotified = notified[prKey] || {}`). -/
def dedupDecision (notified : List NEntry) (prKey headSha latestCR : String) : Bool :=
  match assocGet notified prKey with
  | some r => !(r.sha = headSha && r.latestCR = latestCR)
  | none => true

/-- The notified-map update paired with the decision:
`notified[prKey] = { sha, latestCR, notifiedAt }` exactly when the
decision is to notify. -/
def dedupUpdate (notified : List NEntry) (prKey headSha latestCR now : String) :
    List NEntry :=
  if dedupDecision notified prKey headSha latestCR then
    assocSet notified prKey ⟨headSha, latestCR, now⟩
  else notified

/-! ## PR-review variant: cycle -/

structure PItem : Type where
  number : Nat
  title : String
  url : Option String
  headSha : String
  coderabbitLast : String
  unresolved : Nat
deriving DecidableEq

structure ReadyItem : Type where
  number : Nat
  title : String
  url : Option String
  headSha : String
  coderabbitLast : String
deriving DecidableEq

/-- `prData` fields consulted by the evaluation loop. -/
structure PRData : Type where
  title : Option String
  htmlUrl : Option String
  headSha : Option String
deriving DecidableEq

structure OpenPR : Type where
  number : Option Nat
deriving DecidableEq

/-- The remote collaborators of the PR-review cycle, as fallible oracles,
plus the `Date.getTime` interpretation of ISO timestamps. -/
structure POracles : Type where
  activityQ : Nat → Except Unit PRActivity
  prDataQ : Nat → Except Unit PRData
  threadsQ : Nat → Except Unit (List ThreadPage)
  commitQ : String → Except Unit CommitData
  openPRsQ : Except Unit (List OpenPR)
  getTime : String → Int

/-- Accumulator of the per-PR evaluation loop: the mutated `notified`
object and the `actionable`/`ready` arrays. -/
structure EvalState : Type where
  notified : List NEntry
  actionable : List PItem
  ready : List ReadyItem
deriving DecidableEq

/-- Body of `for (const prNum of Array.from(prsToEvaluate))`: fail-soft
per PR; unresolved threads make the PR actionable; otherwise a head
commit newer than the latest CodeRabbit activity makes it ready, guarded
by the dedup decision. -/
def evalPR (or : POracles) (now : String) (st : EvalState) (prNum : Nat) :
    EvalState :=
  let latestCR? :=
    match or.activityQ prNum with
    | .error _ => none
    | .ok a => getLatestCodeRabbitActivityIso or.getTime a
  match truthyStr latestCR? with
  | none => st
  | some latestCR =>
    match or.prDataQ prNum with
    | .error _ => st
    | .ok prData =>
      match truthyStr prData.headSha with
      | none => st
      | some headSha =>
        let item : PItem :=
          { number := prNum
            title := compactTitle prData.title 80
            url := prData.htmlUrl
            headSha := headSha
            coderabbitLast := latestCR
            unresolved := 0 }
        let unresolved? :=
          match or.threadsQ prNum with
          | .error _ => none
          | .ok pages => some (getCodeRabbitUnresolvedThreadCount pages)
        let headIso? :=
          match or.commitQ headSha with
          | .error _ => none
          | .ok c => commitIsoOf c
        match unresolved?, headIso? with
        | some unresolved, some headIso =>
          let crMs := or.getTime latestCR
          let headMs := or.getTime headIso
          let prKey := toString prNum
          if unresolved > 0 then
            { st with actionable := st.actionable ++ [{ item with unresolved := unresolved }] }
          else if headMs > crMs then
            if dedupDecision st.notified prKey headSha latestCR then
              { st with
                ready := st.ready ++
                  [{ number := item.number
                     title := item.title
                     url := item.url
                     headSha := item.headSha
                     coderabbitLast := latestCR }]
                notified := dedupUpdate st.notified prKey headSha latestCR now }
            else st
          else st
        | _, _ => st

/-- Body of the event loop over the chronological new events: urgent
alert lines for check/deployment events, candidate PR numbers from
review/comment events. -/
def scanStep (acc : List String × List Nat) (ev : PEvent) :
    List String × List Nat :=
  if ev.type = "CheckRunEvent" then
    match lineForCheckRunEvent ev with
    | some l => (acc.1 ++ [l], acc.2)
    | none => acc
  else if ev.type = "CheckSuiteEvent" then
    match lineForCheckSuiteEvent ev with
    | some l => (acc.1 ++ [l], acc.2)
    | none => acc
  else if ev.type = "DeploymentStatusEvent" then
    match lineForDeploymentStatusEvent ev with
    | some l => (acc.1 ++ [l], acc.2)
    | none => acc
  else if ev.type = "PullRequestReviewEvent" ∨
      ev.type = "PullRequestReviewCommentEvent" ∨
      (ev.type = "IssueCommentEvent" ∧
        ((ev.payload.bind (·.issue)).map (·.isPull)).getD false) then
    match prNumFromPayload ev.payload with
    | some n => (acc.1, addUniqueNat acc.2 n)
    | none => acc
  else acc

/-- `events?.[0]?.id ? String(events[0].id) : null`. -/
def newestIdOfP (events : List PEvent) : Option String :=
  match events with
  | [] => none
  | e :: _ => if e.id = "" then none else some e.id

structure POut : Type where
  newestEventId : Option String
  initialized : Bool
  reset : Bool
  urgent : List String
  actionable : List PItem
  ready : List ReadyItem
deriving DecidableEq

/-- Result of the reconciliation part of `main` (everything before the
agent-invocation loop): the printed summary fields, the sequence of
`writeJsonAtomic` calls in order, the computed new-event window and the
final notified map. -/
structure PRun : Type where
  out : POut
  writes : List PWrite
  newer : List PEvent
  notifiedFinal : List NEntry
deriving DecidableEq

/-- `main` of the PR-review variant up to and including the second state
write (line 477); the agent-invocation loop is modelled separately by
`processReviewItem`. -/
def prMain (stIn : Option PStateIn) (events : List PEvent) (or : POracles)
    (now : String) : PRun :=
  let notified := pNotifiedOf stIn
  match newestIdOfP events with
  | none => ⟨⟨none, false, false, [], [], []⟩, [], [], notified⟩
  | some newest =>
    match pLastId stIn with
    | none =>
      ⟨⟨some newest, true, false, [], [], []⟩,
        [⟨newest, notified, now, false⟩], [], notified⟩
    | some last =>
      match findIdxL (fun e => e.id = last) events with
      | none =>
        ⟨⟨some newest, false, true, [], [], []⟩,
          [⟨newest, notified, now, true⟩], [], notified⟩
      | some idx =>
        let newer := (events.take idx).reverse
        let w1 : PWrite := ⟨newest, notified, now, false⟩
        let scanned := newer.foldl scanStep ([], [])
        let prs :=
          if scanned.2.isEmpty then
            match or.openPRsQ with
            | .error _ => []
            | .ok openList =>
              openList.foldl
                (fun l pr =>
                  match truthyNat pr.number with
                  | some n => addUniqueNat l n
                  | none => l) []
          else scanned.2
        let ev := prs.foldl (evalPR or now) ⟨notified, [], []⟩
        ⟨⟨some newest, false, false, scanned.1, ev.actionable, ev.ready⟩,
          [w1, ⟨newest, ev.notified, now, false⟩], newer, ev.notified⟩

/-- The state visible to a later cycle of the PR variant. -/
def stateAfterP (stIn : Option PStateIn) (writes : List PWrite) :
    Option PStateIn :=
  match writes.getLast? with
  | some w => some ⟨some w.lastEventId, some w.notified⟩
  | none => stIn

/-! ## PR-review variant: agent invocation with scoped checkout -/

/-- Result of `runCommand` after the `code ?? 1` / `signal ?? null`
normalisation. -/
structure RunRes : Type where
  code : Int
  signal : Option String
  stdout : String
  stderr : String
deriving DecidableEq

/-- `prepareRepoForPR`: the ephemeral directory `tmp` is created by
`mkdtempSync` before any git step; a failing clone/fetch/checkout throws
(the `Except.error` cases) after the directory already exists. -/
def prepareRepoForPR (tmp : String) (clone fetchRes checkoutRes : RunRes) :
    Except String String :=
  if clone.code ≠ 0 then
    .error ("git clone failed: " ++ jsOrS clone.stderr clone.stdout)
  else if fetchRes.code ≠ 0 then
    .error ("git fetch PR failed: " ++ jsOrS fetchRes.stderr fetchRes.stdout)
  else if checkoutRes.code ≠ 0 then
    .error ("git checkout PR branch failed: " ++
      jsOrS checkoutRes.stderr checkoutRes.stdout)
  else .ok tmp

/-- Exit of `runCodex` (resolved) or a rejection thrown while awaiting
the invocation. -/
structure CodexRes : Type where
  code : Int
  signal : Option String
deriving DecidableEq

/-- Record pushed to `out.codexRuns` for one actionable item. -/
structure CodexRec : Type where
  pr : Nat
  exitCode : Int
  signal : Option String
  error : Option String
deriving DecidableEq

/-- Outcome of processing one actionable item: the run record and the
directories created (`mkdtempSync`) and removed (`fs.rmSync` in the
`finally` block, which runs only when the `repoDir` variable was
assigned). -/
structure ReviewItemRun : Type where
  codexRun : CodexRec
  created : List String
  removed : List String
deriving DecidableEq

/-- The `try { repoDir = await prepareRepoForPR(...); ... } catch {...}
finally { if (repoDir) fs.rmSync(repoDir, ...) }` block of the
agent-invocation loop, for one actionable item. -/
def processReviewItem (prNum : Nat) (tmp : String)
    (clone fetchRes checkoutRes : RunRes) (codex : Except String CodexRes) :
    ReviewItemRun :=
  match prepareRepoForPR tmp clone fetchRes checkoutRes with
  | .error e => ⟨⟨prNum, 1, none, some e⟩, [tmp], []⟩
  | .ok dir =>
    match codex with
    | .ok res => ⟨⟨prNum, res.code, res.signal, none⟩, [tmp], [dir]⟩
    | .error e => ⟨⟨prNum, 1, none, some e⟩, [tmp], [dir]⟩

/-! ## Helper lemmas -/

theorem takeWhile_all {α : Type} (p : α → Bool) :
    ∀ l : List α, (∀ x ∈ l, p x = true) → l.takeWhile p = l
  | [], _ => rfl
  | a :: t, h => by
    have ha := h a (List.mem_cons_self a t)
    simp only [List.takeWhile, ha]
    exact congrArg (a :: ·) (takeWhile_all p t fun x hx => h x (List.mem_cons_of_mem a hx))

theorem findIdxL_none {α : Type} (p : α → Bool) :
    ∀ l : List α, (∀ x ∈ l, p x = false) → findIdxL p l = none
  | [], _ => rfl
  | a :: t, h => by
    have ha := h a (List.mem_cons_self a t)
    simp only [findIdxL, ha, Bool.false_eq_true, if_false]
    rw [findIdxL_none p t fun x hx => h x (List.mem_cons_of_mem a hx)]
    rfl

theorem assocGet_assocSet_self {α : Type} (k : String) (v : α) :
    ∀ m : List (String × α), assocGet (assocSet m k v) k = some v
  | [] => by simp [assocSet, assocGet]
  | e :: rest => by
    by_cases h : e.1 = k
    · simp [assocSet, assocGet, h]
    · simp [assocSet, assocGet, h, assocGet_assocSet_self k v rest]

/-! ### Branch lemmas for the issue-spec cycle -/

theorem collect_firstRun (sl : String) (stIn : Option PriorState) (e : GEvent)
    (rest : List GEvent) (q1 : Nat → Except Unit Bool)
    (q2 : Except Unit (List SearchIssue)) (now : String)
    (hL : priorLastId stIn = none) (hid : e.id ≠ "") :
    collectActionableEvents sl stIn (e :: rest) q1 q2 now =
      ⟨⟨some e.id, true, false, [], []⟩, [⟨e.id, now, false⟩]⟩ := by
  simp [collectActionableEvents, newestIdOf, hid, hL]

theorem collect_noChange (sl : String) (stIn : Option PriorState) (e : GEvent)
    (rest : List GEvent) (q1 : Nat → Except Unit Bool)
    (q2 : Except Unit (List SearchIssue)) (now : String)
    (hL : priorLastId stIn = some e.id) (hid : e.id ≠ "") :
    collectActionableEvents sl stIn (e :: rest) q1 q2 now =
      ⟨⟨some e.id, false, false, [], []⟩, []⟩ := by
  simp [collectActionableEvents, newestIdOf, hid, hL]

theorem collect_gap (sl : String) (stIn : Option PriorState) (e : GEvent)
    (rest : List GEvent) (q1 : Nat → Except Unit Bool)
    (q2 : Except Unit (List SearchIssue)) (now : String) (l : String)
    (hL : priorLastId stIn = some l) (hid : e.id ≠ "")
    (hni : ∀ x ∈ e :: rest, x.id ≠ l) :
    collectActionableEvents sl stIn (e :: rest) q1 q2 now =
      ⟨⟨some e.id, false, true, [], []⟩, [⟨e.id, now, true⟩]⟩ := by
  have hne : ¬(l = e.id) := fun hEq => hni e (List.mem_cons_self e rest) hEq.symm
  have htw : (e :: rest).takeWhile (fun x => x.id != l) = e :: rest :=
    takeWhile_all _ _ fun x hx => by
      simp only [bne_iff_ne, ne_eq]
      exact hni x hx
  simp [collectActionableEvents, newestIdOf, hid, hL, hne, htw]

/-- In every branch with a non-empty feed, the cycle either writes
nothing (and only when the stored cursor already equals the newest id) or
performs exactly one state write carrying the newest id. -/
theorem collect_writes_shape (sl : String) (stIn : Option PriorState) (e : GEvent)
    (rest : List GEvent) (q1 : Nat → Except Unit Bool)
    (q2 : Except Unit (List SearchIssue)) (now : String) (hid : e.id ≠ "") :
    ((collectActionableEvents sl stIn (e :: rest) q1 q2 now).writes = [] ∧
      priorLastId stIn = some e.id) ∨
    (∃ w : StateRec,
      (collectActionableEvents sl stIn (e :: rest) q1 q2 now).writes = [w] ∧
      w.lastEventId = e.id) := by
  cases hL : priorLastId stIn with
  | none =>
    right
    rw [collect_firstRun sl stIn e rest q1 q2 now hL hid]
    exact ⟨_, rfl, rfl⟩
  | some l =>
    by_cases hEq : l = e.id
    · left
      subst hEq
      rw [collect_noChange sl stIn e rest q1 q2 now hL hid]
      exact ⟨rfl, rfl⟩
    · right
      simp [collectActionableEvents, newestIdOf, hid, hL, hEq]
      split
      · exact ⟨_, rfl, rfl⟩
      · exact ⟨_, rfl, rfl⟩

/-- After a cycle over a non-empty feed, the stored cursor equals the
newest feed id. -/
theorem collect_cursorAfter (sl : String) (stIn : Option PriorState) (e : GEvent)
    (rest : List GEvent) (q1 : Nat → Except Unit Bool)
    (q2 : Except Unit (List SearchIssue)) (now : String) (hid : e.id ≠ "") :
    priorLastId (stateAfterI stIn
      (collectActionableEvents sl stIn (e :: rest) q1 q2 now).writes) = some e.id := by
  rcases collect_writes_shape sl stIn e rest q1 q2 now hid with ⟨hw, hc⟩ | ⟨w, hw, hc⟩
  · rw [hw]
    exact hc
  · rw [hw]
    simp [stateAfterI, priorLastId, truthyStr, hc, hid]

/-! ### Branch lemmas for the PR-review cycle -/

theorem prMain_firstRun (stIn : Option PStateIn) (e : PEvent) (rest : List PEvent)
    (or : POracles) (now : String)
    (hL : pLastId stIn = none) (hid : e.id ≠ "") :
    prMain stIn (e :: rest) or now =
      ⟨⟨some e.id, true, false, [], [], []⟩,
        [⟨e.id, pNotifiedOf stIn, now, false⟩], [], pNotifiedOf stIn⟩ := by
  simp [prMain, newestIdOfP, hid, hL]

theorem prMain_gap (stIn : Option PStateIn) (e : PEvent) (rest : List PEvent)
    (or : POracles) (now : String) (l : String)
    (hL : pLastId stIn = some l) (hid : e.id ≠ "")
    (hni : ∀ x ∈ e :: rest, x.id ≠ l) :
    prMain stIn (e :: rest) or now =
      ⟨⟨some e.id, false, true, [], [], []⟩,
        [⟨e.id, pNotifiedOf stIn, now, true⟩], [], pNotifiedOf stIn⟩ := by
  have hfi : findIdxL (fun x => x.id = l) (e :: rest) = none :=
    findIdxL_none _ _ fun x hx => by
      simp only [decide_eq_false_iff_not]
      exact hni x hx
  simp [prMain, newestIdOfP, hid, hL, hfi]

/-- In the branch where the stored cursor is found in the window, the
cycle performs exactly two writes: first the advanced cursor with the
prior notified map, then the advanced cursor with the final notified map. -/
theorem prMain_found_writes (stIn : Option PStateIn) (e : PEvent) (rest : List PEvent)
    (or : POracles) (now : String) (l : String) (i : Nat)
    (hL : pLastId stIn = some l) (hid : e.id ≠ "")
    (hfi : findIdxL (fun x => x.id = l) (e :: rest) = some i) :
    (prMain stIn (e :: rest) or now).writes =
      [⟨e.id, pNotifiedOf stIn, now, false⟩,
       ⟨e.id, (prMain stIn (e :: rest) or now).notifiedFinal, now, false⟩] := by
  simp [prMain, newestIdOfP, hid, hL, hfi]

/-- In every branch with a non-empty feed, every state write of the
PR-review cycle carries the newest feed id, and at least one write
happens. -/
theorem prMain_writes_shape (stIn : Option PStateIn) (e : PEvent) (rest : List PEvent)
    (or : POracles) (now : String) (hid : e.id ≠ "") :
    (prMain stIn (e :: rest) or now).writes ≠ [] ∧
    ∀ w ∈ (prMain stIn (e :: rest) or now).writes, w.lastEventId = e.id := by
  cases hL : pLastId stIn with
  | none =>
    rw [prMain_firstRun stIn e rest or now hL hid]
    constructor
    · simp
    · intro w hw
      simp only [List.mem_singleton] at hw
      rw [hw]
  | some l =>
    cases hfi : findIdxL (fun x => x.id = l) (e :: rest) with
    | none =>
      simp only [prMain, newestIdOfP, hL, hfi]
      rw [if_neg hid]
      constructor
      · simp
      · intro w hw
        simp only [List.mem_singleton] at hw
        rw [hw]
    | some i =>
      rw [show (prMain stIn (e :: rest) or now).writes = _ from
        prMain_found_writes stIn e rest or now l i hL hid hfi]
      constructor
      · simp
      · intro w hw
        rcases List.mem_pair.mp hw with h | h <;> rw [h]

/-- After a PR-review cycle over a non-empty feed, the stored cursor
equals the newest feed id. -/
theorem prMain_cursorAfter (stIn : Option PStateIn) (e : PEvent) (rest : List PEvent)
    (or : POracles) (now : String) (hid : e.id ≠ "") :
    pLastId (stateAfterP stIn (prMain stIn (e :: rest) or now).writes) = some e.id := by
  obtain ⟨hne, hall⟩ := prMain_writes_shape stIn e rest or now hid
  cases hw : (prMain stIn (e :: rest) or now).writes with
  | nil => exact absurd hw hne
  | cons w ws =>
    have hlast : ((w :: ws).getLast?).isSome := by
      cases ws <;> simp [List.getLast?]
    cases hg : (w :: ws).getLast? with
    | none => rw [hg] at hlast; simp at hlast
    | some wl =>
      have hmem : wl ∈ w :: ws := by
        obtain ⟨hne2, hEqL⟩ :=
          List.mem_getLast?_eq_getLast (Option.mem_def.mpr hg)
        rw [hEqL]
        exact List.getLast_mem hne2
      have hwl : wl.lastEventId = e.id := hall wl (hw ▸ hmem)
      simp [stateAfterP, hw, hg, pLastId, truthyStr, hwl, hid]

/-- When the stored cursor equals the newest feed id, the PR-review cycle
computes an empty new-event window, no initialization/reset, no urgent
lines, and every write keeps the newest id as cursor. -/
theorem prMain_noChange_shape (stIn : Option PStateIn) (e : PEvent)
    (rest : List PEvent) (or : POracles) (now : String)
    (hL : pLastId stIn = some e.id) (hid : e.id ≠ "") :
    (prMain stIn (e :: rest) or now).newer = [] ∧
    (prMain stIn (e :: rest) or now).out.initialized = false ∧
    (prMain stIn (e :: rest) or now).out.reset = false ∧
    (prMain stIn (e :: rest) or now).out.urgent = [] ∧
    ∀ w ∈ (prMain stIn (e :: rest) or now).writes, w.lastEventId = e.id := by
  have hfi : findIdxL (fun x => x.id = e.id) (e :: rest) = some 0 := by
    simp [findIdxL]
  refine ⟨?_, ?_, ?_, ?_, ?_⟩ <;>
    simp [prMain, newestIdOfP, hid, hL, hfi]

/-- The loop cap of 5 pages is immaterial for sequences of at most 5
well-formed pages: the loop result is the sum over every page. -/
theorem crCountLoop_eq_sum :
    ∀ (pages : List ThreadPage) (n : Nat), wfPagesB pages = true →
      pages.length ≤ n → crCountLoop n pages = specUnresolvedTotal pages
  | [], _, hwf, _ => by simp [wfPagesB] at hwf
  | p :: rest, n, hwf, hn => by
    cases n with
    | zero => simp at hn
    | succ n =>
      cases rest with
      | nil =>
        have hp : p.hasNextPage = false := by
          simpa [wfPagesB] using hwf
        simp [crCountLoop, hp, specUnresolvedTotal]
      | cons q rest2 =>
        have hsplit : p.hasNextPage = true ∧ wfPagesB (q :: rest2) = true := by
          simpa [wfPagesB] using hwf
        have hlen : (q :: rest2).length ≤ n := by
          simpa using hn
        have ih := crCountLoop_eq_sum (q :: rest2) n hsplit.2 hlen
        simp [crCountLoop, hsplit.1, ih, specUnresolvedTotal]

/-! ## Concrete fixtures for witnesses and counterexamples -/

def nullPrQ : Nat → Except Unit Bool := fun _ => .error ()

def nullSweepQ : Except Unit (List SearchIssue) := .error ()

def nullPOracles : POracles :=
  ⟨fun _ => .error (), fun _ => .error (), fun _ => .error (),
   fun _ => .error (), .error (), fun _ => 0⟩

def evG : GEvent := ⟨"9", "PushEvent", none⟩

def evP : PEvent := ⟨"8", "PushEvent", none⟩

/-- A thread page holding exactly one unresolved CodeRabbit thread. -/
def crPage (h : Bool) : ThreadPage :=
  ⟨[⟨false, false, [⟨some "coderabbitai"⟩]⟩], h⟩

def crSixPages : List ThreadPage :=
  [crPage true, crPage true, crPage true, crPage true, crPage true, crPage false]

def crTwoPages : List ThreadPage := [crPage true, crPage false]

/-- Oracles for a cycle in which PR 7 has CodeRabbit activity at `T1`,
head sha `A`, zero unresolved threads and a head commit at the later
time `T2`: the PR becomes ready and its notification record is written. -/
def c7Oracles : POracles :=
  { activityQ := fun n =>
      if n = 7 then .ok ⟨[⟨some "coderabbitai", some "T1"⟩], [], []⟩ else .error ()
    prDataQ := fun n =>
      if n = 7 then .ok ⟨some "Fix things", some "u", some "A"⟩ else .error ()
    threadsQ := fun n => if n = 7 then .ok [⟨[], false⟩] else .error ()
    commitQ := fun s => if s = "A" then .ok ⟨some "T2", none⟩ else .error ()
    openPRsQ := .error ()
    getTime := fun s => if s = "T2" then 2 else 1 }

def c7Events : List PEvent :=
  [⟨"2", "PullRequestReviewEvent", some ⟨some ⟨some 7⟩, none, none, none, none⟩⟩,
   ⟨"1", "PushEvent", none⟩]

def c7Prior : Option PStateIn := some ⟨some "1", some []⟩

def gitOk : RunRes := ⟨0, none, "", ""⟩

def gitFail : RunRes := ⟨1, none, "", "boom"⟩

/-! ## Claims -/

/-- C1: for every run with no prior persisted cursor and a non-empty
event feed, both variants return empty matched/actionable (and
urgent/ready) sets, persist exactly one state record whose cursor is the
id of the newest (first) event of the feed, and report first-run
initialization. -/
theorem claim_C1_first_run (sl : String) (stI : Option PriorState) (e1 : GEvent)
    (r1 : List GEvent) (q1 : Nat → Except Unit Bool)
    (q2 : Except Unit (List SearchIssue)) (n1 : String)
    (stP : Option PStateIn) (e2 : PEvent) (r2 : List PEvent) (or : POracles)
    (n2 : String)
    (hI : priorLastId stI = none) (hP : pLastId stP = none)
    (h1 : e1.id ≠ "") (h2 : e2.id ≠ "") :
    collectActionableEvents sl stI (e1 :: r1) q1 q2 n1 =
      ⟨⟨some e1.id, true, false, [], []⟩, [⟨e1.id, n1, false⟩]⟩ ∧
    prMain stP (e2 :: r2) or n2 =
      ⟨⟨some e2.id, true, false, [], [], []⟩,
        [⟨e2.id, pNotifiedOf stP, n2, false⟩], [], pNotifiedOf stP⟩ :=
  ⟨collect_firstRun sl stI e1 r1 q1 q2 n1 hI h1,
   prMain_firstRun stP e2 r2 or n2 hP h2⟩

theorem claim_C1_first_run_witness :
    priorLastId none = none ∧ pLastId none = none ∧
      ("9" : String) ≠ "" ∧ ("8" : String) ≠ "" ∧
    collectActionableEvents "module-spec" none [evG] nullPrQ nullSweepQ "N" =
      ⟨⟨some "9", true, false, [], []⟩, [⟨"9", "N", false⟩]⟩ ∧
    prMain none [evP] nullPOracles "N" =
      ⟨⟨some "8", true, false, [], [], []⟩, [⟨"8", [], "N", false⟩], [], []⟩ := by
  have h := claim_C1_first_run "module-spec" none evG [] nullPrQ nullSweepQ "N"
    none evP [] nullPOracles "N" rfl rfl (by decide) (by decide)
  exact ⟨rfl, rfl, by decide, by decide, h.1, h.2⟩

/-- C2: for every run whose stored cursor id appears nowhere in the
current feed window, both variants return empty matched/actionable (and
urgent/ready) sets, persist exactly one state record carrying the newest
event id and the reset flag, and report the reset in the output. -/
theorem claim_C2_gap_reset (sl : String) (stI : Option PriorState) (e1 : GEvent)
    (r1 : List GEvent) (q1 : Nat → Except Unit Bool)
    (q2 : Except Unit (List SearchIssue)) (n1 : String) (l1 : String)
    (stP : Option PStateIn) (e2 : PEvent) (r2 : List PEvent) (or : POracles)
    (n2 : String) (l2 : String)
    (hI : priorLastId stI = some l1) (hP : pLastId stP = some l2)
    (h1 : e1.id ≠ "") (h2 : e2.id ≠ "")
    (hm1 : ∀ x ∈ e1 :: r1, x.id ≠ l1) (hm2 : ∀ x ∈ e2 :: r2, x.id ≠ l2) :
    collectActionableEvents sl stI (e1 :: r1) q1 q2 n1 =
      ⟨⟨some e1.id, false, true, [], []⟩, [⟨e1.id, n1, true⟩]⟩ ∧
    prMain stP (e2 :: r2) or n2 =
      ⟨⟨some e2.id, false, true, [], [], []⟩,
        [⟨e2.id, pNotifiedOf stP, n2, true⟩], [], pNotifiedOf stP⟩ :=
  ⟨collect_gap sl stI e1 r1 q1 q2 n1 l1 hI h1 hm1,
   prMain_gap stP e2 r2 or n2 l2 hP h2 hm2⟩

theorem claim_C2_gap_reset_witness :
    priorLastId (some ⟨some "5"⟩) = some "5" ∧
      pLastId (some ⟨some "5", some []⟩) = some "5" ∧
      ("9" : String) ≠ "" ∧ ("8" : String) ≠ "" ∧
      (∀ x ∈ [evG], x.id ≠ "5") ∧ (∀ x ∈ [evP], x.id ≠ "5") ∧
    collectActionableEvents "module-spec" (some ⟨some "5"⟩) [evG] nullPrQ nullSweepQ "N" =
      ⟨⟨some "9", false, true, [], []⟩, [⟨"9", "N", true⟩]⟩ ∧
    prMain (some ⟨some "5", some []⟩) [evP] nullPOracles "N" =
      ⟨⟨some "8", false, true, [], [], []⟩, [⟨"8", [], "N", true⟩], [], []⟩ := by
  have h := claim_C2_gap_reset "module-spec" (some ⟨some "5"⟩) evG [] nullPrQ
    nullSweepQ "N" "5" (some ⟨some "5", some []⟩) evP [] nullPOracles "N" "5"
    rfl rfl (by decide) (by decide) (by decide) (by decide)
  exact ⟨rfl, rfl, by decide, by decide, by decide, by decide, h.1, h.2⟩

/-- C3: cursor advance is idempotent: running a second cycle on the same
unchanged non-empty feed, starting from the state left by the first
cycle, finds the stored cursor equal to the newest feed id, computes an
empty new-event set and empty matched/actionable (resp. urgent) output,
writes nothing new in the issue variant, and in the PR variant only
rewrites the same cursor value. -/
theorem claim_C3_idempotent (sl : String) (stI : Option PriorState) (e1 : GEvent)
    (r1 : List GEvent) (q1 : Nat → Except Unit Bool)
    (q2 : Except Unit (List SearchIssue)) (n1 n1b : String)
    (stP : Option PStateIn) (e2 : PEvent) (r2 : List PEvent) (or : POracles)
    (n2 n2b : String)
    (h1 : e1.id ≠ "") (h2 : e2.id ≠ "") :
    priorLastId (stateAfterI stI
        (collectActionableEvents sl stI (e1 :: r1) q1 q2 n1).writes) = some e1.id ∧
    collectActionableEvents sl
        (stateAfterI stI (collectActionableEvents sl stI (e1 :: r1) q1 q2 n1).writes)
        (e1 :: r1) q1 q2 n1b =
      ⟨⟨some e1.id, false, false, [], []⟩, []⟩ ∧
    pLastId (stateAfterP stP
        (prMain stP (e2 :: r2) or n2).writes) = some e2.id ∧
    (prMain (stateAfterP stP (prMain stP (e2 :: r2) or n2).writes)
        (e2 :: r2) or n2b).newer = [] ∧
    (prMain (stateAfterP stP (prMain stP (e2 :: r2) or n2).writes)
        (e2 :: r2) or n2b).out.initialized = false ∧
    (prMain (stateAfterP stP (prMain stP (e2 :: r2) or n2).writes)
        (e2 :: r2) or n2b).out.reset = false ∧
    (prMain (stateAfterP stP (prMain stP (e2 :: r2) or n2).writes)
        (e2 :: r2) or n2b).out.urgent = [] ∧
    ∀ w ∈ (prMain (stateAfterP stP (prMain stP (e2 :: r2) or n2).writes)
        (e2 :: r2) or n2b).writes, w.lastEventId = e2.id := by
  have hcI := collect_cursorAfter sl stI e1 r1 q1 q2 n1 h1
  have hcP := prMain_cursorAfter stP e2 r2 or n2 h2
  obtain ⟨ha, hb, hc, hd, he⟩ := prMain_noChange_shape
    (stateAfterP stP (prMain stP (e2 :: r2) or n2).writes) e2 r2 or n2b hcP h2
  exact ⟨hcI,
    collect_noChange sl _ e1 r1 q1 q2 n1b hcI h1,
    hcP, ha, hb, hc, hd, he⟩

theorem claim_C3_idempotent_witness :
    ("9" : String) ≠ "" ∧ ("8" : String) ≠ "" ∧
    (priorLastId (stateAfterI none
        (collectActionableEvents "module-spec" none [evG] nullPrQ nullSweepQ "N").writes) =
      some "9" ∧
    collectActionableEvents "module-spec"
        (stateAfterI none
          (collectActionableEvents "module-spec" none [evG] nullPrQ nullSweepQ "N").writes)
        [evG] nullPrQ nullSweepQ "M" =
      ⟨⟨some "9", false, false, [], []⟩, []⟩ ∧
    pLastId (stateAfterP none (prMain none [evP] nullPOracles "N").writes) = some "8" ∧
    (prMain (stateAfterP none (prMain none [evP] nullPOracles "N").writes)
        [evP] nullPOracles "M").newer = [] ∧
    (prMain (stateAfterP none (prMain none [evP] nullPOracles "N").writes)
        [evP] nullPOracles "M").out.initialized = false ∧
    (prMain (stateAfterP none (prMain none [evP] nullPOracles "N").writes)
        [evP] nullPOracles "M").out.reset = false ∧
    (prMain (stateAfterP none (prMain none [evP] nullPOracles "N").writes)
        [evP] nullPOracles "M").out.urgent = [] ∧
    ∀ w ∈ (prMain (stateAfterP none (prMain none [evP] nullPOracles "N").writes)
        [evP] nullPOracles "M").writes, w.lastEventId = "8") :=
  ⟨by decide, by decide,
   claim_C3_idempotent "module-spec" none evG [] nullPrQ nullSweepQ "N" "M"
     none evP [] nullPOracles "N" "M" (by decide) (by decide)⟩

/-- C4: the dedup decision is false exactly when an existing record for
the PR has an identical `(headSha, latestActivity)` pair; any difference
makes it true; the paired update always leaves a record with the current
pair, after which the same recomputation yields false — a ready
transition is reported at most once per distinct pair per PR. -/
theorem claim_C4_dedup (m : List NEntry) (k s t now : String) :
    (dedupDecision m k s t = false ↔
      ∃ r, assocGet m k = some r ∧ r.sha = s ∧ r.latestCR = t) ∧
    dedupDecision (dedupUpdate m k s t now) k s t = false ∧
    ∃ ts, assocGet (dedupUpdate m k s t now) k = some ⟨s, t, ts⟩ := by
  refine ⟨?_, ?_, ?_⟩
  · unfold dedupDecision
    cases h : assocGet m k with
    | none => simp
    | some r => simp
  · unfold dedupUpdate
    by_cases hd : dedupDecision m k s t = true
    · rw [if_pos hd]
      unfold dedupDecision
      rw [assocGet_assocSet_self]
      simp
    · rw [if_neg hd]
      exact Bool.not_eq_true _ ▸ Bool.of_not_eq_true hd
  · unfold dedupUpdate
    by_cases hd : dedupDecision m k s t = true
    · rw [if_pos hd]
      exact ⟨now, assocGet_assocSet_self k _ m⟩
    · rw [if_neg hd]
      have hfalse : dedupDecision m k s t = false := Bool.of_not_eq_true hd
      unfold dedupDecision at hfalse
      cases h : assocGet m k with
      | none => rw [h] at hfalse; simp at hfalse
      | some r =>
        rw [h] at hfalse
        simp only [Bool.not_eq_false', Bool.and_eq_true, decide_eq_true_eq] at hfalse
        exact ⟨r.notifiedAt, by rw [← hfalse.1, ← hfalse.2]⟩

/-- C5: the issue-variant label matcher is case/format-insensitive: any
issue carrying a label `"Module Spec"`, `"module_spec"` or
`"module-spec"` matches the configured target `"module-spec"`. -/
theorem claim_C5_label_matcher (issue : GIssue)
    (h : "Module Spec" ∈ extractLabels issue.labels ∨
         "module_spec" ∈ extractLabels issue.labels ∨
         "module-spec" ∈ extractLabels issue.labels) :
    hasModuleSpecLabel "module-spec" issue = true := by
  unfold hasModuleSpecLabel
  simp only [List.any_eq_true, decide_eq_true_eq]
  rcases h with h | h | h
  · exact ⟨"Module Spec", h, by decide⟩
  · exact ⟨"module_spec", h, by decide⟩
  · exact ⟨"module-spec", h, by decide⟩

theorem claim_C5_label_matcher_witness :
    ("Module Spec" ∈
        extractLabels [GLabel.str "Module Spec", GLabel.obj (some "module_spec")] ∨
      "module_spec" ∈
        extractLabels [GLabel.str "Module Spec", GLabel.obj (some "module_spec")] ∨
      "module-spec" ∈
        extractLabels [GLabel.str "Module Spec", GLabel.obj (some "module_spec")]) ∧
    hasModuleSpecLabel "module-spec"
      ⟨10, "T", "u", none, none,
        [GLabel.str "Module Spec", GLabel.obj (some "module_spec")], "ts"⟩ = true :=
  ⟨by decide,
   claim_C5_label_matcher
     ⟨10, "T", "u", none, none,
       [GLabel.str "Module Spec", GLabel.obj (some "module_spec")], "ts"⟩
     (by decide)⟩

/-- C6 (counterexample): a well-formed six-page thread feed, each page
holding one unresolved CodeRabbit thread, on which the counting loop
concludes 5 while the count over all reported pages is 6 — traversal
does not continue across all pages. -/
theorem claim_C6_counterexample :
    wfPagesB crSixPages = true ∧ crSixPages.length = 6 ∧
    getCodeRabbitUnresolvedThreadCount crSixPages = 5 ∧
    specUnresolvedTotal crSixPages = 6 ∧
    getCodeRabbitUnresolvedThreadCount crSixPages ≠ specUnresolvedTotal crSixPages := by
  refine ⟨by decide, by decide, by decide, by decide, by decide⟩

/-- C6 (amended): pagination traversal follows `hasNextPage` across
pages, but the loop fetches at most 5 pages; for every well-formed page
sequence of at most 5 pages the concluded unresolved count equals the
count over all reported pages. -/
theorem claim_C6_pagination_capped (pages : List ThreadPage)
    (hwf : wfPagesB pages = true) (hlen : pages.length ≤ 5) :
    getCodeRabbitUnresolvedThreadCount pages = specUnresolvedTotal pages :=
  crCountLoop_eq_sum pages 5 hwf hlen

theorem claim_C6_pagination_capped_witness :
    wfPagesB crTwoPages = true ∧ crTwoPages.length ≤ 5 ∧
    getCodeRabbitUnresolvedThreadCount crTwoPages = specUnresolvedTotal crTwoPages :=
  ⟨by decide, by decide,
   claim_C6_pagination_capped crTwoPages (by decide) (by decide)⟩

/-- C7 (counterexample): a cycle in which PR 7 becomes ready and gets a
notification record, yet the first of the two state writes already
carries the advanced cursor `"2"` (prior cursor was `"1"`) together with
the still-empty notification map — a state write in which the cursor has
advanced but the notification map has not yet been updated. -/
theorem claim_C7_counterexample :
    pLastId c7Prior = some "1" ∧
    (prMain c7Prior c7Events c7Oracles "NOW").writes =
      [⟨"2", [], "NOW", false⟩,
       ⟨"2", [("7", ⟨"A", "T1", "NOW"⟩)], "NOW", false⟩] ∧
    (prMain c7Prior c7Events c7Oracles "NOW").notifiedFinal =
      [("7", ⟨"A", "T1", "NOW"⟩)] := by
  refine ⟨by decide, by decide, by decide⟩

/-- C7 (amended): in the PR-review variant, whenever the stored cursor is
found in the window, the advanced cursor is persisted immediately —
together with the previous notification map — and the full state with
the updated notification map is persisted again after notifications are
computed; the cursor and the final notification map are therefore only
written together in the second of the two writes. -/
theorem claim_C7_two_writes (stP : Option PStateIn) (e : PEvent)
    (rest : List PEvent) (or : POracles) (now : String) (l : String) (i : Nat)
    (hL : pLastId stP = some l) (hid : e.id ≠ "")
    (hfi : findIdxL (fun x => x.id = l) (e :: rest) = some i) :
    (prMain stP (e :: rest) or now).writes =
      [⟨e.id, pNotifiedOf stP, now, false⟩,
       ⟨e.id, (prMain stP (e :: rest) or now).notifiedFinal, now, false⟩] :=
  prMain_found_writes stP e rest or now l i hL hid hfi

theorem claim_C7_two_writes_witness :
    pLastId c7Prior = some "1" ∧ ("2" : String) ≠ "" ∧
    findIdxL (fun x => x.id = "1") c7Events = some 1 ∧
    (prMain c7Prior c7Events c7Oracles "NOW").writes =
      [⟨"2", pNotifiedOf c7Prior, "NOW", false⟩,
       ⟨"2", (prMain c7Prior c7Events c7Oracles "NOW").notifiedFinal, "NOW", false⟩] :=
  ⟨by decide, by decide, by decide,
   claim_C7_two_writes c7Prior ⟨"2", "PullRequestReviewEvent",
       some ⟨some ⟨some 7⟩, none, none, none, none⟩⟩
     [⟨"1", "PushEvent", none⟩] c7Oracles "NOW" "1" 1 (by decide) (by decide)
     (by decide)⟩

/-- C8: an unreadable or invalid persisted state file (the `.error` case
of the read) is treated as absent state — the read returns `none`
instead of throwing — and a cycle over a non-empty feed then behaves
exactly as first-run initialization in both variants. -/
theorem claim_C8_state_corruption (u1 u2 : Unit) (sl : String) (e1 : GEvent)
    (r1 : List GEvent) (q1 : Nat → Except Unit Bool)
    (q2 : Except Unit (List SearchIssue)) (n1 : String)
    (e2 : PEvent) (r2 : List PEvent) (or : POracles) (n2 : String)
    (h1 : e1.id ≠ "") (h2 : e2.id ≠ "") :
    readState (.error u1) = none ∧
    readJson (.error u2) = none ∧
    collectActionableEvents sl (readState (.error u1)) (e1 :: r1) q1 q2 n1 =
      ⟨⟨some e1.id, true, false, [], []⟩, [⟨e1.id, n1, false⟩]⟩ ∧
    prMain (readJson (.error u2)) (e2 :: r2) or n2 =
      ⟨⟨some e2.id, true, false, [], [], []⟩,
        [⟨e2.id, [], n2, false⟩], [], []⟩ :=
  ⟨rfl, rfl,
   collect_firstRun sl none e1 r1 q1 q2 n1 rfl h1,
   prMain_firstRun none e2 r2 or n2 rfl h2⟩

theorem claim_C8_state_corruption_witness :
    ("9" : String) ≠ "" ∧ ("8" : String) ≠ "" ∧
    (readState (.error ()) = none ∧
    readJson (.error ()) = none ∧
    collectActionableEvents "module-spec" (readState (.error ())) [evG]
        nullPrQ nullSweepQ "N" =
      ⟨⟨some "9", true, false, [], []⟩, [⟨"9", "N", false⟩]⟩ ∧
    prMain (readJson (.error ())) [evP] nullPOracles "N" =
      ⟨⟨some "8", true, false, [], [], []⟩, [⟨"8", [], "N", false⟩], [], []⟩) :=
  ⟨by decide, by decide,
   claim_C8_state_corruption () () "module-spec" evG [] nullPrQ nullSweepQ "N"
     evP [] nullPOracles "N" (by decide) (by decide)⟩

/-- C9 (counterexample): when the git clone of the scoped checkout fails,
`prepareRepoForPR` throws after `mkdtempSync` already created the
ephemeral directory, the `finally` block sees `repoDir` unassigned, and
the created directory is not removed — cleanup does not happen on this
exit path. -/
theorem claim_C9_counterexample :
    processReviewItem 7 "/tmp/codex-pr-review-x" gitFail gitOk gitOk
        (.ok ⟨0, none⟩) =
      ⟨⟨7, 1, none, some "git clone failed: boom"⟩,
        ["/tmp/codex-pr-review-x"], []⟩ := by
  decide

/-- C9 (amended): whenever the scoped checkout completes (clone, fetch
and checkout all exit 0), the ephemeral directory is removed on every
exit path of the invocation — success, nonzero agent exit, or a thrown
error while awaiting the agent. -/
theorem claim_C9_cleanup_after_checkout (prNum : Nat) (tmp : String)
    (clone fetchRes checkoutRes : RunRes) (codex : Except String CodexRes)
    (h1 : clone.code = 0) (h2 : fetchRes.code = 0) (h3 : checkoutRes.code = 0) :
    (processReviewItem prNum tmp clone fetchRes checkoutRes codex).created = [tmp] ∧
    (processReviewItem prNum tmp clone fetchRes checkoutRes codex).removed = [tmp] := by
  unfold processReviewItem prepareRepoForPR
  rw [if_neg (by rw [h1]; exact fun h => h rfl),
    if_neg (by rw [h2]; exact fun h => h rfl),
    if_neg (by rw [h3]; exact fun h => h rfl)]
  cases codex <;> exact ⟨rfl, rfl⟩

theorem claim_C9_cleanup_after_checkout_witness :
    gitOk.code = 0 ∧
    ((processReviewItem 7 "/tmp/d" gitOk gitOk gitOk (.error "spawn failed")).created =
        ["/tmp/d"] ∧
      (processReviewItem 7 "/tmp/d" gitOk gitOk gitOk (.error "spawn failed")).removed =
        ["/tmp/d"]) :=
  ⟨by decide,
   claim_C9_cleanup_after_checkout 7 "/tmp/d" gitOk gitOk gitOk
     (.error "spawn failed") (by decide) (by decide) (by decide)⟩

/-- C10: with an empty fetched event feed, both variants perform no state
write at all — the persisted cursor and notification map are left as
they were — and the output carries empty matched/actionable (and
urgent/ready) sets, whatever the prior state. -/
theorem claim_C10_empty_feed_no_write (sl : String) (stI : Option PriorState)
    (q1 : Nat → Except Unit Bool) (q2 : Except Unit (List SearchIssue))
    (n1 : String) (stP : Option PStateIn) (or : POracles) (n2 : String) :
    collectActionableEvents sl stI [] q1 q2 n1 =
      ⟨⟨none, false, false, [], []⟩, []⟩ ∧
    prMain stP [] or n2 =
      ⟨⟨none, false, false, [], [], []⟩, [], [], pNotifiedOf stP⟩ :=
  ⟨rfl, rfl⟩

end CodexCron
